import Mathlib

/-!
# viper-kubernetes: ConfigMap and Secret remote-config adapters

A shallow embedding of `kubernetes.go`: the path parser, the two `Get`
adapters, the two watch loops and the two constructors, followed by the
properties proved about them.

Modelling conventions.

* A Go `string` is a Lean `String`; `[]byte(s)` is the UTF-8 encoding of `s`.
* A Go `[]byte` is `GoBytes`, an `Option`: `none` is the nil slice.
* A Go `map[string]V` is an association list read with `List.lookup`
  (a nil map is the empty list).
* A Go `error` is `Option GoError`: `none` is the nil error.
* The cluster client is a record of functions; a call that fails returns
  `Except.error`.  Every client invocation is recorded in a call log, so that
  "no cluster interaction" is a statement about that log.
* The watch goroutine is a function of the sequence of outcomes of its
  `select` statement (the stop signal, or an event received from the result
  channel).  A receive on the closed result channel yields `Event.zero`.
-/

namespace ViperKubernetes

/-! ## Data model -/

/-- A Go error value, identified by its message. -/
structure GoError where
  msg : String
deriving DecidableEq, Repr

/-- A Go byte slice; the value none is the nil slice. -/
abbrev GoBytes := Option (List UInt8)

/-- The conversion of a Go string to a byte slice: its UTF-8 bytes, never nil. -/
def bytesOfString (s : String) : GoBytes :=
  some (s.data.flatMap String.utf8EncodeChar)

/-- The fields of a core/v1 ConfigMap that the adapter reads. -/
structure ConfigMap where
  Name : String
  Data : List (String × String)
  BinaryData : List (String × GoBytes)
deriving DecidableEq, Repr

/-- The fields of a core/v1 Secret that the adapter reads. -/
structure Secret where
  Name : String
  Data : List (String × GoBytes)
deriving DecidableEq, Repr

/-- The dynamic value of a runtime.Object carried by a watch event. -/
inductive RuntimeObject where
  | nil
  | configMap (cm : ConfigMap)
  | secret (s : Secret)
  | status (message : String)
deriving DecidableEq, Repr

/-- A watch.Event. -/
structure Event where
  EventType : String
  Object : RuntimeObject
deriving DecidableEq, Repr

/-- The zero value of watch.Event, received from a closed result channel. -/
def Event.zero : Event := ⟨"", RuntimeObject.nil⟩

/-- The message sent on the output channel of Watch. -/
structure Response where
  Value : GoBytes
  Error : Option GoError
deriving DecidableEq, Repr

/-- The handle returned by a successful Watch call of the client. -/
structure WatchInterface where
  resource : String
deriving DecidableEq, Repr

/-- The operations invoked on the cluster client and on the watch handle. -/
inductive ClientCall where
  | configMapsGet (ns name : String)
  | configMapsWatch (ns : String)
  | secretsGet (ns name : String)
  | secretsWatch (ns : String)
  | watchStop
deriving DecidableEq, Repr

/-- The part of kubernetes.Interface used by the adapters. -/
structure Client where
  configMapsGet : String → String → Except GoError ConfigMap
  configMapsWatch : String → Except GoError WatchInterface
  secretsGet : String → String → Except GoError Secret
  secretsWatch : String → Except GoError WatchInterface

/-- One resolution of the select statement of a watch loop. -/
inductive Select where
  | stop
  | event (e : Event)
deriving DecidableEq, Repr

/-- A runtime panic. -/
inductive Panic where
  | nilPointerDereference
  | interfaceConversion
deriving DecidableEq, Repr

/-- How far a watch goroutine got: it returned (closing the output channel),
it panicked, or it is blocked in select with nothing more to receive. -/
inductive Outcome where
  | returned
  | panicked (p : Panic)
  | waiting
deriving DecidableEq, Repr

/-- The observable behaviour of one watch goroutine. -/
structure WatchRun where
  sent : List Response
  calls : List ClientCall
  outcome : Outcome
deriving DecidableEq, Repr

/-- The result of a Get together with the client calls it made. -/
structure GetResult where
  data : GoBytes
  err : Option GoError
  calls : List ClientCall
deriving DecidableEq, Repr

/-! ## The program -/

def defaultNamespace : String := "default"

/-- The call strings.Split(s, sep) for a separator of one character. -/
def stringsSplitChars (sep : Char) : List Char → List (List Char)
  | [] => [[]]
  | c :: cs =>
    if c = sep then [] :: stringsSplitChars sep cs
    else
      match stringsSplitChars sep cs with
      | [] => [[c]]
      | w :: ws => (c :: w) :: ws

def stringsSplit (s : String) (sep : Char) : List String :=
  (stringsSplitChars sep s.data).map String.mk

def parsePath (path : String) : String × String × Option GoError :=
  let values := stringsSplit path '/'
  match values with
  | [v0, v1] => (v0, v1, none)
  | _ => ("", "", some ⟨"unstructual path, path should be cm(secrete)name/key"⟩)

def extractKeyFromConfigMap (configMap : ConfigMap) (key : String) :
    GoBytes × Option GoError :=
  match configMap.Data.lookup key with
  | some val => (bytesOfString val, none)
  | none =>
    match configMap.BinaryData.lookup key with
    | some val => (val, none)
    | none => (none, some ⟨"missing file in config map"⟩)

structure ConfigMapConfigManager where
  Client : Client
  Namespace : String

structure SecretConfigManager where
  Client : Client
  Namespace : String

def ConfigMapConfigManager.Get (kcm : ConfigMapConfigManager) (key : String) : GetResult :=
  match parsePath key with
  | (_, _, some err) => ⟨none, some err, []⟩
  | (name, configKey, none) =>
    match kcm.Client.configMapsGet kcm.Namespace name with
    | .error err => ⟨none, some err, [.configMapsGet kcm.Namespace name]⟩
    | .ok configMap =>
      let r := extractKeyFromConfigMap configMap configKey
      ⟨r.1, r.2, [.configMapsGet kcm.Namespace name]⟩

def SecretConfigManager.Get (scm : SecretConfigManager) (key : String) : GetResult :=
  match parsePath key with
  | (_, _, some err) => ⟨none, some err, []⟩
  | (name, configKey, none) =>
    match scm.Client.secretsGet scm.Namespace name with
    | .error err => ⟨none, some err, [.secretsGet scm.Namespace name]⟩
    | .ok secret =>
      match secret.Data.lookup configKey with
      | some val => ⟨val, none, [.secretsGet scm.Namespace name]⟩
      | none => ⟨none, some ⟨"missing file in secret"⟩, [.secretsGet scm.Namespace name]⟩

/-- Prefix a run with a Response sent before it. -/
def WatchRun.afterSend (r : Response) (run : WatchRun) : WatchRun :=
  ⟨r :: run.sent, run.calls, run.outcome⟩

/-- Prefix a run with a client call made before it. -/
def WatchRun.afterCall (c : ClientCall) (run : WatchRun) : WatchRun :=
  ⟨run.sent, c :: run.calls, run.outcome⟩

/-- The for/select loop of ConfigMapConfigManager.Watch.  Both channel operands
of the select statement are evaluated on entering it, so with a nil watch handle
the call watch.ResultChan() panics there, whichever case is ready. -/
def ConfigMapConfigManager.watchLoop (configMapName key : String) :
    Option WatchInterface → List Select → WatchRun
  | none, _ => ⟨[], [], .panicked .nilPointerDereference⟩
  | some _, [] => ⟨[], [], .waiting⟩
  | some _, .stop :: _ => ⟨[], [.watchStop], .returned⟩
  | some watch, .event event :: rest =>
    match event.Object with
    | .configMap configMap =>
      if configMap.Name = configMapName then
        match extractKeyFromConfigMap configMap key with
        | (_, some err) =>
          (ConfigMapConfigManager.watchLoop configMapName key (some watch) rest).afterSend
            ⟨none, some err⟩
        | (data, none) =>
          (ConfigMapConfigManager.watchLoop configMapName key (some watch) rest).afterSend
            ⟨data, none⟩
      else ConfigMapConfigManager.watchLoop configMapName key (some watch) rest
    | _ => ⟨[], [], .panicked .interfaceConversion⟩

/-- The goroutine started by ConfigMapConfigManager.Watch: the client's Watch
call, the Response sent when it failed (after which control falls through to
the loop: there is no return), then the loop. -/
def ConfigMapConfigManager.watchGoroutine (kcm : ConfigMapConfigManager)
    (configMapName key : String) (sched : List Select) : WatchRun :=
  WatchRun.afterCall (.configMapsWatch kcm.Namespace)
    (match kcm.Client.configMapsWatch kcm.Namespace with
     | .error err =>
       (ConfigMapConfigManager.watchLoop configMapName key none sched).afterSend
         ⟨none, some err⟩
     | .ok watch => ConfigMapConfigManager.watchLoop configMapName key (some watch) sched)

/-- The function Watch: the value none is the nil channel (no goroutine is
started); otherwise the behaviour of the goroutine feeding the channel. -/
def ConfigMapConfigManager.Watch (kcm : ConfigMapConfigManager) (key : String)
    (sched : List Select) : Option WatchRun :=
  match parsePath key with
  | (_, _, some _) => none
  | (name, configKey, none) => some (kcm.watchGoroutine name configKey sched)

/-- The for/select loop of SecretConfigManager.Watch. -/
def SecretConfigManager.watchLoop (secretName configKey : String) :
    Option WatchInterface → List Select → WatchRun
  | none, _ => ⟨[], [], .panicked .nilPointerDereference⟩
  | some _, [] => ⟨[], [], .waiting⟩
  | some _, .stop :: _ => ⟨[], [.watchStop], .returned⟩
  | some watch, .event event :: rest =>
    match event.Object with
    | .secret secret =>
      if secret.Name = secretName then
        match secret.Data.lookup configKey with
        | some val =>
          (SecretConfigManager.watchLoop secretName configKey (some watch) rest).afterSend
            ⟨val, none⟩
        | none =>
          (SecretConfigManager.watchLoop secretName configKey (some watch) rest).afterSend
            ⟨none, some ⟨"missing file in secret"⟩⟩
      else SecretConfigManager.watchLoop secretName configKey (some watch) rest
    | _ => ⟨[], [], .panicked .interfaceConversion⟩

/-- The goroutine started by SecretConfigManager.Watch. -/
def SecretConfigManager.watchGoroutine (scm : SecretConfigManager)
    (secretName configKey : String) (sched : List Select) : WatchRun :=
  WatchRun.afterCall (.secretsWatch scm.Namespace)
    (match scm.Client.secretsWatch scm.Namespace with
     | .error err =>
       (SecretConfigManager.watchLoop secretName configKey none sched).afterSend
         ⟨none, some err⟩
     | .ok watch => SecretConfigManager.watchLoop secretName configKey (some watch) sched)

def SecretConfigManager.Watch (scm : SecretConfigManager) (key : String)
    (sched : List Select) : Option WatchRun :=
  match parsePath key with
  | (_, _, some _) => none
  | (name, configKey, none) => some (scm.watchGoroutine name configKey sched)

/-- The kubeconfig loading library (clientcmd) and the clientset constructor,
which the constructors call. -/
structure Library where
  defaultPrecedence : List String
  ClientConfig : List String → Except GoError String
  NewForConfig : String → Except GoError Client

def GetConfigFromReader (lib : Library) (configPath : String) : Except GoError String :=
  let precedence :=
    if configPath ≠ "" then configPath :: lib.defaultPrecedence else lib.defaultPrecedence
  lib.ClientConfig precedence

def NewConfigMapConfigManager (lib : Library) (configPath ns : String) :
    Except GoError ConfigMapConfigManager :=
  match GetConfigFromReader lib configPath with
  | .error err => .error err
  | .ok config =>
    match lib.NewForConfig config with
    | .error err => .error err
    | .ok clientset =>
      let ns := if ns = "" then defaultNamespace else ns
      .ok ⟨clientset, ns⟩

def NewSecretConfigManager (lib : Library) (configPath ns : String) :
    Except GoError SecretConfigManager :=
  match GetConfigFromReader lib configPath with
  | .error err => .error err
  | .ok config =>
    match lib.NewForConfig config with
    | .error err => .error err
    | .ok clientset => .ok ⟨clientset, ns⟩

/-! ## Test data -/

def sampleConfigMap : ConfigMap :=
  ⟨"app", [("both", "d"), ("cfg", "a=1")], [("both", some [1]), ("bin", some [0, 255])]⟩

def sampleSecret : Secret := ⟨"creds", [("token", some [115, 51])]⟩

def sampleError : GoError := ⟨"connection refused"⟩

/-- A cluster holding sampleConfigMap and sampleSecret in namespace default. -/
def sampleClient : Client where
  configMapsGet ns name :=
    if ns = "default" ∧ name = "app" then .ok sampleConfigMap else .error ⟨"not found"⟩
  configMapsWatch _ := .ok ⟨"configmaps"⟩
  secretsGet ns name :=
    if ns = "default" ∧ name = "creds" then .ok sampleSecret else .error ⟨"not found"⟩
  secretsWatch _ := .ok ⟨"secrets"⟩

/-- A cluster that cannot be reached: every call fails with sampleError. -/
def failingClient : Client where
  configMapsGet _ _ := .error sampleError
  configMapsWatch _ := .error sampleError
  secretsGet _ _ := .error sampleError
  secretsWatch _ := .error sampleError

def sampleLibrary : Library := ⟨["~/.kube/config"], fun _ => .ok "cfg", fun _ => .ok sampleClient⟩

/-! ## Splitting on a separator -/

theorem stringsSplitChars_ne_nil (sep : Char) (l : List Char) :
    stringsSplitChars sep l ≠ [] := by
  induction l with
  | nil => simp [stringsSplitChars]
  | cons c cs ih =>
    unfold stringsSplitChars
    split
    · simp
    · split <;> simp

theorem length_stringsSplitChars (sep : Char) (l : List Char) :
    (stringsSplitChars sep l).length = l.count sep + 1 := by
  induction l with
  | nil => simp [stringsSplitChars]
  | cons c cs ih =>
    unfold stringsSplitChars
    by_cases h : c = sep
    · subst h
      simp [ih]
    · rw [if_neg h, List.count_cons_of_ne (fun h2 => h h2.symm)]
      cases hs : stringsSplitChars sep cs with
      | nil => exact absurd hs (stringsSplitChars_ne_nil sep cs)
      | cons w ws =>
        rw [hs] at ih
        simpa using ih

theorem stringsSplitChars_of_not_mem (sep : Char) (l : List Char) (h : sep ∉ l) :
    stringsSplitChars sep l = [l] := by
  induction l with
  | nil => simp [stringsSplitChars]
  | cons c cs ih =>
    have hc : c ≠ sep := fun e => h (by simp [e])
    have hcs : sep ∉ cs := fun m => h (List.mem_cons_of_mem _ m)
    unfold stringsSplitChars
    rw [if_neg hc, ih hcs]

theorem stringsSplitChars_append (sep : Char) (a b : List Char) (h : sep ∉ a) :
    stringsSplitChars sep (a ++ sep :: b) = a :: stringsSplitChars sep b := by
  induction a with
  | nil => simp [stringsSplitChars]
  | cons c cs ih =>
    have hc : c ≠ sep := fun e => h (by simp [e])
    have hcs : sep ∉ cs := fun m => h (List.mem_cons_of_mem _ m)
    rw [List.cons_append, stringsSplitChars, if_neg hc, ih hcs]

theorem length_stringsSplit (path : String) :
    (stringsSplit path '/').length = path.data.count '/' + 1 := by
  simp [stringsSplit, length_stringsSplitChars]

theorem stringsSplit_join (name field : String)
    (hn : '/' ∉ name.data) (hf : '/' ∉ field.data) :
    stringsSplit (name ++ "/" ++ field) '/' = [name, field] := by
  have hd : (name ++ "/" ++ field).data = name.data ++ '/' :: field.data := by
    simp [String.data_append]
  simp [stringsSplit, hd, stringsSplitChars_append _ _ _ hn,
    stringsSplitChars_of_not_mem _ _ hf]

/-! ## The path parser -/

theorem parsePath_of_length_two (path : String) (h : (stringsSplit path '/').length = 2) :
    ∃ v0 v1, stringsSplit path '/' = [v0, v1] ∧ parsePath path = (v0, v1, none) := by
  match hs : stringsSplit path '/', h with
  | [v0, v1], _ => exact ⟨v0, v1, rfl, by simp [parsePath, hs]⟩

theorem parsePath_of_length_ne_two (path : String) (h : (stringsSplit path '/').length ≠ 2) :
    parsePath path
      = ("", "", some ⟨"unstructual path, path should be cm(secrete)name/key"⟩) := by
  simp only [parsePath]
  split
  · next v0 v1 hs => simp [hs] at h
  · rfl

theorem parsePath_join (name field : String)
    (hn : '/' ∉ name.data) (hf : '/' ∉ field.data) :
    parsePath (name ++ "/" ++ field) = (name, field, none) := by
  simp [parsePath, stringsSplit_join name field hn hf]

theorem parsePath_err_cases (path : String) :
    (parsePath path).2.2 = none ∨
    parsePath path
      = ("", "", some ⟨"unstructual path, path should be cm(secrete)name/key"⟩) := by
  by_cases h : (stringsSplit path '/').length = 2
  · obtain ⟨v0, v1, _, hp⟩ := parsePath_of_length_two path h
    left; rw [hp]
  · right; exact parsePath_of_length_ne_two path h

theorem parsePath_eta (path : String) :
    parsePath path = ((parsePath path).1, (parsePath path).2.1, (parsePath path).2.2) := rfl

/-! ## Extraction and the watch loops -/

theorem extractKeyFromConfigMap_cases (cm : ConfigMap) (key : String) :
    (∃ d, extractKeyFromConfigMap cm key = (d, none)) ∨
    extractKeyFromConfigMap cm key = (none, some ⟨"missing file in config map"⟩) := by
  unfold extractKeyFromConfigMap
  cases cm.Data.lookup key with
  | some v => exact Or.inl ⟨_, rfl⟩
  | none =>
    cases cm.BinaryData.lookup key with
    | some b => exact Or.inl ⟨_, rfl⟩
    | none => exact Or.inr rfl

theorem configMap_watchLoop_nil (name key : String) (sched : List Select) :
    ConfigMapConfigManager.watchLoop name key none sched
      = ⟨[], [], .panicked .nilPointerDereference⟩ := by
  cases sched <;> rfl

theorem secret_watchLoop_nil (name key : String) (sched : List Select) :
    SecretConfigManager.watchLoop name key none sched
      = ⟨[], [], .panicked .nilPointerDereference⟩ := by
  cases sched <;> rfl

theorem configMap_watchLoop_event (name key ty : String) (w : WatchInterface)
    (cm : ConfigMap) (rest : List Select) :
    ConfigMapConfigManager.watchLoop name key (some w) (.event ⟨ty, .configMap cm⟩ :: rest)
      = if cm.Name = name then
          (ConfigMapConfigManager.watchLoop name key (some w) rest).afterSend
            ⟨(extractKeyFromConfigMap cm key).1, (extractKeyFromConfigMap cm key).2⟩
        else ConfigMapConfigManager.watchLoop name key (some w) rest := by
  rw [ConfigMapConfigManager.watchLoop]
  by_cases h : cm.Name = name
  · simp only [h, if_true]
    rcases extractKeyFromConfigMap_cases cm key with ⟨d, hd⟩ | hd <;> simp [hd]
  · simp [h]

theorem secret_watchLoop_event (name key ty : String) (w : WatchInterface)
    (s : Secret) (rest : List Select) :
    SecretConfigManager.watchLoop name key (some w) (.event ⟨ty, .secret s⟩ :: rest)
      = if s.Name = name then
          (SecretConfigManager.watchLoop name key (some w) rest).afterSend
            (match s.Data.lookup key with
             | some val => ⟨val, none⟩
             | none => ⟨none, some ⟨"missing file in secret"⟩⟩)
        else SecretConfigManager.watchLoop name key (some w) rest := by
  rw [SecretConfigManager.watchLoop]
  by_cases h : s.Name = name
  · simp only [h, if_true]
    cases s.Data.lookup key <;> rfl
  · simp [h]

theorem configMap_watchLoop_events (name key : String) (w : WatchInterface)
    (cms : List (String × ConfigMap)) (rest : List Select) :
    ConfigMapConfigManager.watchLoop name key (some w)
        (cms.map (fun p => Select.event ⟨p.1, .configMap p.2⟩) ++ rest)
      = ⟨(cms.filter (fun p => p.2.Name = name)).map
            (fun p => ⟨(extractKeyFromConfigMap p.2 key).1, (extractKeyFromConfigMap p.2 key).2⟩)
          ++ (ConfigMapConfigManager.watchLoop name key (some w) rest).sent,
         (ConfigMapConfigManager.watchLoop name key (some w) rest).calls,
         (ConfigMapConfigManager.watchLoop name key (some w) rest).outcome⟩ := by
  induction cms with
  | nil => simp
  | cons p ps ih =>
    rw [List.map_cons, List.cons_append, configMap_watchLoop_event, ih]
    by_cases h : p.2.Name = name
    · simp [h, WatchRun.afterSend]
    · simp [h]

theorem secret_watchLoop_events (name key : String) (w : WatchInterface)
    (ss : List (String × Secret)) (rest : List Select) :
    SecretConfigManager.watchLoop name key (some w)
        (ss.map (fun p => Select.event ⟨p.1, .secret p.2⟩) ++ rest)
      = ⟨(ss.filter (fun p => p.2.Name = name)).map
            (fun p => match p.2.Data.lookup key with
              | some val => ⟨val, none⟩
              | none => ⟨none, some ⟨"missing file in secret"⟩⟩)
          ++ (SecretConfigManager.watchLoop name key (some w) rest).sent,
         (SecretConfigManager.watchLoop name key (some w) rest).calls,
         (SecretConfigManager.watchLoop name key (some w) rest).outcome⟩ := by
  induction ss with
  | nil => simp
  | cons p ps ih =>
    rw [List.map_cons, List.cons_append, secret_watchLoop_event, ih]
    by_cases h : p.2.Name = name
    · simp [h, WatchRun.afterSend]
    · simp [h]

/-- C3: parsePath returns a non-nil error exactly when the path does not hold
exactly one slash, that is, when splitting on the slash does not give two
segments; on error the returned name and key are both empty.  The paths a, the
empty path and a/b/c are rejected and a/b is accepted. -/
theorem parsePath_error_iff (path : String) :
    ((parsePath path).2.2 ≠ none ↔ path.data.count '/' ≠ 1) ∧
    ((parsePath path).2.2 ≠ none ↔ (stringsSplit path '/').length ≠ 2) ∧
    ((parsePath path).2.2 ≠ none → (parsePath path).1 = "" ∧ (parsePath path).2.1 = "") ∧
    (parsePath "a").2.2 ≠ none ∧ (parsePath "").2.2 ≠ none ∧
    (parsePath "a/b/c").2.2 ≠ none ∧ (parsePath "a/b").2.2 = none := by
  have key : (parsePath path).2.2 ≠ none ↔ (stringsSplit path '/').length ≠ 2 := by
    by_cases h : (stringsSplit path '/').length = 2
    · obtain ⟨v0, v1, _, hp⟩ := parsePath_of_length_two path h
      simp [hp, h]
    · simp [parsePath_of_length_ne_two path h, h]
  refine ⟨?_, key, ?_, by decide, by decide, by decide, by decide⟩
  · rw [key, length_stringsSplit]
    omega
  · intro herr
    rw [parsePath_of_length_ne_two path (key.mp herr)]
    exact ⟨rfl, rfl⟩

/-- C4: for name and field without a slash (possibly empty), parsePath of
name/field returns name, field and a nil error, and joining the two results
with a slash gives the input path back. -/
theorem parsePath_roundtrip (name field : String)
    (hn : '/' ∉ name.data) (hf : '/' ∉ field.data) :
    parsePath (name ++ "/" ++ field) = (name, field, none) ∧
    (parsePath (name ++ "/" ++ field)).1 ++ "/" ++ (parsePath (name ++ "/" ++ field)).2.1
      = name ++ "/" ++ field := by
  rw [parsePath_join name field hn hf]
  exact ⟨rfl, rfl⟩

theorem parsePath_roundtrip_witness :
    ('/' ∉ "".data ∧ '/' ∉ "k".data) ∧
    (parsePath ("" ++ "/" ++ "k") = ("", "k", none) ∧
     (parsePath ("" ++ "/" ++ "k")).1 ++ "/" ++ (parsePath ("" ++ "/" ++ "k")).2.1
       = "" ++ "/" ++ "k") :=
  ⟨⟨by decide, by decide⟩, parsePath_roundtrip "" "k" (by decide) (by decide)⟩

/-! ## Get -/

/-- C1: when the ConfigMap lookup of name in the manager namespace returns cm,
Get of name/field returns the bytes of the Data entry of field when there is
one (also when BinaryData has the field too), otherwise the BinaryData entry
when there is one, otherwise nil data and the error missing file in config
map. -/
theorem configMap_get_extracts (kcm : ConfigMapConfigManager) (name field : String)
    (cm : ConfigMap) (hn : '/' ∉ name.data) (hf : '/' ∉ field.data)
    (hget : kcm.Client.configMapsGet kcm.Namespace name = .ok cm) :
    (∀ v, cm.Data.lookup field = some v →
      kcm.Get (name ++ "/" ++ field)
        = ⟨bytesOfString v, none, [.configMapsGet kcm.Namespace name]⟩) ∧
    (∀ b, cm.Data.lookup field = none → cm.BinaryData.lookup field = some b →
      kcm.Get (name ++ "/" ++ field) = ⟨b, none, [.configMapsGet kcm.Namespace name]⟩) ∧
    (cm.Data.lookup field = none → cm.BinaryData.lookup field = none →
      kcm.Get (name ++ "/" ++ field)
        = ⟨none, some ⟨"missing file in config map"⟩, [.configMapsGet kcm.Namespace name]⟩) ∧
    (∀ v b, cm.Data.lookup field = some v → cm.BinaryData.lookup field = some b →
      (kcm.Get (name ++ "/" ++ field)).data = bytesOfString v ∧
      (kcm.Get (name ++ "/" ++ field)).err = none) := by
  have hG : kcm.Get (name ++ "/" ++ field)
      = ⟨(extractKeyFromConfigMap cm field).1, (extractKeyFromConfigMap cm field).2,
         [.configMapsGet kcm.Namespace name]⟩ := by
    simp [ConfigMapConfigManager.Get, parsePath_join name field hn hf, hget]
  rw [hG]
  refine ⟨?_, ?_, ?_, ?_⟩
  · intro v hv
    simp [extractKeyFromConfigMap, hv]
  · intro b hd hb
    simp [extractKeyFromConfigMap, hd, hb]
  · intro hd hb
    simp [extractKeyFromConfigMap, hd, hb]
  · intro v b hv _
    simp [extractKeyFromConfigMap, hv]

theorem configMap_get_extracts_witness :
    ('/' ∉ "app".data ∧ '/' ∉ "both".data ∧
      sampleClient.configMapsGet "default" "app" = .ok sampleConfigMap ∧
      sampleConfigMap.Data.lookup "both" = some "d" ∧
      sampleConfigMap.BinaryData.lookup "both" = some (some [1])) ∧
    ((ConfigMapConfigManager.Get ⟨sampleClient, "default"⟩ ("app" ++ "/" ++ "both")).data
        = bytesOfString "d" ∧
     (ConfigMapConfigManager.Get ⟨sampleClient, "default"⟩ ("app" ++ "/" ++ "both")).err
        = none) :=
  ⟨⟨by decide, by decide, rfl, by decide, by decide⟩,
   (configMap_get_extracts ⟨sampleClient, "default"⟩ "app" "both" sampleConfigMap
      (by decide) (by decide) rfl).2.2.2 "d" (some [1]) (by decide) (by decide)⟩

/-- C2: when the Secret lookup of name in the manager namespace returns s, Get
of name/field returns exactly the Data entry of field with a nil error when
there is one, and otherwise nil data and the error missing file in secret. -/
theorem secret_get_extracts (scm : SecretConfigManager) (name field : String)
    (s : Secret) (hn : '/' ∉ name.data) (hf : '/' ∉ field.data)
    (hget : scm.Client.secretsGet scm.Namespace name = .ok s) :
    (∀ v, s.Data.lookup field = some v →
      scm.Get (name ++ "/" ++ field) = ⟨v, none, [.secretsGet scm.Namespace name]⟩) ∧
    (s.Data.lookup field = none →
      scm.Get (name ++ "/" ++ field)
        = ⟨none, some ⟨"missing file in secret"⟩, [.secretsGet scm.Namespace name]⟩) := by
  refine ⟨?_, ?_⟩
  · intro v hv
    simp [SecretConfigManager.Get, parsePath_join name field hn hf, hget, hv]
  · intro hv
    simp [SecretConfigManager.Get, parsePath_join name field hn hf, hget, hv]

theorem secret_get_extracts_witness :
    ('/' ∉ "creds".data ∧ '/' ∉ "token".data ∧
      sampleClient.secretsGet "default" "creds" = .ok sampleSecret ∧
      sampleSecret.Data.lookup "token" = some (some [115, 51])) ∧
    SecretConfigManager.Get ⟨sampleClient, "default"⟩ ("creds" ++ "/" ++ "token")
      = ⟨some [115, 51], none, [.secretsGet "default" "creds"]⟩ :=
  ⟨⟨by decide, by decide, rfl, by decide⟩,
   (secret_get_extracts ⟨sampleClient, "default"⟩ "creds" "token" sampleSecret
      (by decide) (by decide) rfl).1 (some [115, 51]) (by decide)⟩

/-- C5: for a key that parsePath accepts, when the lookup of the named object
fails with error e, Get of the ConfigMap manager and Get of the Secret manager
return nil data and that same error e. -/
theorem get_passes_lookup_error (kcm : ConfigMapConfigManager) (scm : SecretConfigManager)
    (key : String) (e : GoError) (hkey : (parsePath key).2.2 = none) :
    (kcm.Client.configMapsGet kcm.Namespace (parsePath key).1 = .error e →
      (kcm.Get key).data = none ∧ (kcm.Get key).err = some e) ∧
    (scm.Client.secretsGet scm.Namespace (parsePath key).1 = .error e →
      (scm.Get key).data = none ∧ (scm.Get key).err = some e) := by
  have hp := parsePath_eta key
  rw [hkey] at hp
  refine ⟨?_, ?_⟩
  · intro h
    rw [ConfigMapConfigManager.Get, hp]
    simp [h]
  · intro h
    rw [SecretConfigManager.Get, hp]
    simp [h]

theorem get_passes_lookup_error_witness :
    ((parsePath "app/cfg").2.2 = none ∧
      failingClient.configMapsGet "default" (parsePath "app/cfg").1 = .error sampleError ∧
      failingClient.secretsGet "default" (parsePath "app/cfg").1 = .error sampleError) ∧
    ((ConfigMapConfigManager.Get ⟨failingClient, "default"⟩ "app/cfg").data = none ∧
      (ConfigMapConfigManager.Get ⟨failingClient, "default"⟩ "app/cfg").err
        = some sampleError) ∧
    ((SecretConfigManager.Get ⟨failingClient, "default"⟩ "app/cfg").data = none ∧
      (SecretConfigManager.Get ⟨failingClient, "default"⟩ "app/cfg").err
        = some sampleError) :=
  ⟨⟨by decide, rfl, rfl⟩,
   (get_passes_lookup_error ⟨failingClient, "default"⟩ ⟨failingClient, "default"⟩
      "app/cfg" sampleError (by decide)).1 rfl,
   (get_passes_lookup_error ⟨failingClient, "default"⟩ ⟨failingClient, "default"⟩
      "app/cfg" sampleError (by decide)).2 rfl⟩

/-! ## Watch -/

/-- C6: with the watch established, Watch of name/field translates each event
on its own: an event whose object is named name yields one Response, holding
what the extraction of Get gives for that object and field (the value and a
nil error when found, no value and the missing file error when not), any other
event yields none, so the Responses follow the order of the matching events;
this holds while the loop waits for more events and when it is then stopped.
The last part of each half says that this Response is the result of Get on a
manager whose lookup returns the object. -/
theorem watch_translates_events (kcm : ConfigMapConfigManager) (scm : SecretConfigManager)
    (name field : String) (w : WatchInterface) (cms : List (String × ConfigMap))
    (ss : List (String × Secret)) (rest : List Select)
    (hn : '/' ∉ name.data) (hf : '/' ∉ field.data) :
    (kcm.Client.configMapsWatch kcm.Namespace = .ok w →
      kcm.Watch (name ++ "/" ++ field) (cms.map (fun p => Select.event ⟨p.1, .configMap p.2⟩))
        = some ⟨(cms.filter (fun p => p.2.Name = name)).map (fun p =>
              ⟨(extractKeyFromConfigMap p.2 field).1, (extractKeyFromConfigMap p.2 field).2⟩),
            [.configMapsWatch kcm.Namespace], .waiting⟩ ∧
      kcm.Watch (name ++ "/" ++ field)
          (cms.map (fun p => Select.event ⟨p.1, .configMap p.2⟩) ++ .stop :: rest)
        = some ⟨(cms.filter (fun p => p.2.Name = name)).map (fun p =>
              ⟨(extractKeyFromConfigMap p.2 field).1, (extractKeyFromConfigMap p.2 field).2⟩),
            [.configMapsWatch kcm.Namespace, .watchStop], .returned⟩ ∧
      ∀ (g : ConfigMapConfigManager) (cm : ConfigMap),
        g.Client.configMapsGet g.Namespace name = .ok cm →
        (⟨(g.Get (name ++ "/" ++ field)).data, (g.Get (name ++ "/" ++ field)).err⟩ : Response)
          = ⟨(extractKeyFromConfigMap cm field).1, (extractKeyFromConfigMap cm field).2⟩) ∧
    (scm.Client.secretsWatch scm.Namespace = .ok w →
      scm.Watch (name ++ "/" ++ field) (ss.map (fun p => Select.event ⟨p.1, .secret p.2⟩))
        = some ⟨(ss.filter (fun p => p.2.Name = name)).map (fun p =>
              match p.2.Data.lookup field with
              | some val => ⟨val, none⟩
              | none => ⟨none, some ⟨"missing file in secret"⟩⟩),
            [.secretsWatch scm.Namespace], .waiting⟩ ∧
      scm.Watch (name ++ "/" ++ field)
          (ss.map (fun p => Select.event ⟨p.1, .secret p.2⟩) ++ .stop :: rest)
        = some ⟨(ss.filter (fun p => p.2.Name = name)).map (fun p =>
              match p.2.Data.lookup field with
              | some val => ⟨val, none⟩
              | none => ⟨none, some ⟨"missing file in secret"⟩⟩),
            [.secretsWatch scm.Namespace, .watchStop], .returned⟩ ∧
      ∀ (g : SecretConfigManager) (s : Secret),
        g.Client.secretsGet g.Namespace name = .ok s →
        (⟨(g.Get (name ++ "/" ++ field)).data, (g.Get (name ++ "/" ++ field)).err⟩ : Response)
          = (match s.Data.lookup field with
             | some val => ⟨val, none⟩
             | none => ⟨none, some ⟨"missing file in secret"⟩⟩)) := by
  have hp := parsePath_join name field hn hf
  refine ⟨fun hw => ⟨?_, ?_, ?_⟩, fun hw => ⟨?_, ?_, ?_⟩⟩
  · have h := configMap_watchLoop_events name field w cms []
    rw [List.append_nil] at h
    simp [ConfigMapConfigManager.Watch, ConfigMapConfigManager.watchGoroutine, hp, hw, h,
      WatchRun.afterCall, ConfigMapConfigManager.watchLoop]
  · simp [ConfigMapConfigManager.Watch, ConfigMapConfigManager.watchGoroutine, hp, hw,
      configMap_watchLoop_events, WatchRun.afterCall, ConfigMapConfigManager.watchLoop]
  · intro g cm hg
    simp [ConfigMapConfigManager.Get, hp, hg]
  · have h := secret_watchLoop_events name field w ss []
    rw [List.append_nil] at h
    simp [SecretConfigManager.Watch, SecretConfigManager.watchGoroutine, hp, hw, h,
      WatchRun.afterCall, SecretConfigManager.watchLoop]
  · simp [SecretConfigManager.Watch, SecretConfigManager.watchGoroutine, hp, hw,
      secret_watchLoop_events, WatchRun.afterCall, SecretConfigManager.watchLoop]
  · intro g s hg
    simp only [SecretConfigManager.Get, hp, hg]
    cases s.Data.lookup field <;> rfl

theorem watch_translates_events_witness :
    ('/' ∉ "app".data ∧ '/' ∉ "cfg".data ∧
      sampleClient.configMapsWatch "default" = .ok ⟨"configmaps"⟩ ∧
      sampleClient.secretsWatch "default" = .ok ⟨"secrets"⟩) ∧
    (ConfigMapConfigManager.Watch ⟨sampleClient, "default"⟩ ("app" ++ "/" ++ "cfg")
        ([("ADDED", sampleConfigMap), ("MODIFIED", ⟨"other", [("cfg", "zzz")], []⟩),
          ("MODIFIED", ⟨"app", [], []⟩)].map (fun p => Select.event ⟨p.1, .configMap p.2⟩))
      = some ⟨[⟨some [97, 61, 49], none⟩, ⟨none, some ⟨"missing file in config map"⟩⟩],
          [.configMapsWatch "default"], .waiting⟩) ∧
    (SecretConfigManager.Watch ⟨sampleClient, "default"⟩ ("app" ++ "/" ++ "cfg")
        ([("ADDED", ⟨"app", [("cfg", some [7])]⟩), ("MODIFIED", sampleSecret),
          ("DELETED", ⟨"app", []⟩)].map (fun p => Select.event ⟨p.1, .secret p.2⟩)
          ++ .stop :: [.event Event.zero])
      = some ⟨[⟨some [7], none⟩, ⟨none, some ⟨"missing file in secret"⟩⟩],
          [.secretsWatch "default", .watchStop], .returned⟩) :=
  ⟨⟨by decide, by decide, rfl, rfl⟩,
   ((watch_translates_events ⟨sampleClient, "default"⟩ ⟨sampleClient, "default"⟩
      "app" "cfg" ⟨"configmaps"⟩
      [("ADDED", sampleConfigMap), ("MODIFIED", ⟨"other", [("cfg", "zzz")], []⟩),
        ("MODIFIED", ⟨"app", [], []⟩)]
      [] [] (by decide) (by decide)).1 rfl).1.trans (by decide),
   ((watch_translates_events ⟨sampleClient, "default"⟩ ⟨sampleClient, "default"⟩
      "app" "cfg" ⟨"secrets"⟩ []
      [("ADDED", ⟨"app", [("cfg", some [7])]⟩), ("MODIFIED", sampleSecret),
        ("DELETED", ⟨"app", []⟩)]
      [.event Event.zero] (by decide) (by decide)).2 rfl).2.1.trans (by decide)⟩

/-- C7: for a key that parsePath accepts, when the Watch call of the client
fails with error e, the first Response on the channel returned by Watch of the
ConfigMap manager, and of the Secret manager, has Error e and a nil Value. -/
theorem watch_passes_watch_error (kcm : ConfigMapConfigManager) (scm : SecretConfigManager)
    (key : String) (e : GoError) (sched : List Select)
    (hkey : (parsePath key).2.2 = none) :
    (kcm.Client.configMapsWatch kcm.Namespace = .error e →
      ∃ run, kcm.Watch key sched = some run ∧ run.sent.head? = some ⟨none, some e⟩) ∧
    (scm.Client.secretsWatch scm.Namespace = .error e →
      ∃ run, scm.Watch key sched = some run ∧ run.sent.head? = some ⟨none, some e⟩) := by
  have hp := parsePath_eta key
  rw [hkey] at hp
  refine ⟨fun hw => ⟨_, by rw [ConfigMapConfigManager.Watch, hp], ?_⟩,
    fun hw => ⟨_, by rw [SecretConfigManager.Watch, hp], ?_⟩⟩
  · simp [ConfigMapConfigManager.watchGoroutine, hw, WatchRun.afterCall, WatchRun.afterSend]
  · simp [SecretConfigManager.watchGoroutine, hw, WatchRun.afterCall, WatchRun.afterSend]

theorem watch_passes_watch_error_witness :
    ((parsePath "app/cfg").2.2 = none ∧
      failingClient.configMapsWatch "default" = .error sampleError ∧
      failingClient.secretsWatch "default" = .error sampleError) ∧
    (∃ run, ConfigMapConfigManager.Watch ⟨failingClient, "default"⟩ "app/cfg" [.stop]
        = some run ∧ run.sent.head? = some ⟨none, some sampleError⟩) ∧
    (∃ run, SecretConfigManager.Watch ⟨failingClient, "default"⟩ "app/cfg" [.stop]
        = some run ∧ run.sent.head? = some ⟨none, some sampleError⟩) :=
  ⟨⟨by decide, rfl, rfl⟩,
   (watch_passes_watch_error ⟨failingClient, "default"⟩ ⟨failingClient, "default"⟩
      "app/cfg" sampleError [.stop] (by decide)).1 rfl,
   (watch_passes_watch_error ⟨failingClient, "default"⟩ ⟨failingClient, "default"⟩
      "app/cfg" sampleError [.stop] (by decide)).2 rfl⟩

/-- C8: the watch loops do hit runtime failures.  When the Watch call of the
client failed, the goroutine sends the error and then enters the loop with a
nil watch handle, where evaluating the result channel panics, whatever the
schedule; and an event whose Object is nil (the zero event of a closed result
channel) or is not of the watched kind makes the unchecked conversion panic. -/
theorem watch_loop_panics :
    ConfigMapConfigManager.Watch ⟨failingClient, "default"⟩ "app/cfg" []
      = some ⟨[⟨none, some sampleError⟩], [.configMapsWatch "default"],
          .panicked .nilPointerDereference⟩ ∧
    ConfigMapConfigManager.Watch ⟨failingClient, "default"⟩ "app/cfg" [.stop]
      = some ⟨[⟨none, some sampleError⟩], [.configMapsWatch "default"],
          .panicked .nilPointerDereference⟩ ∧
    SecretConfigManager.Watch ⟨failingClient, "default"⟩ "creds/token" [.stop]
      = some ⟨[⟨none, some sampleError⟩], [.secretsWatch "default"],
          .panicked .nilPointerDereference⟩ ∧
    ConfigMapConfigManager.Watch ⟨sampleClient, "default"⟩ "app/cfg"
        [.event ⟨"ADDED", .configMap sampleConfigMap⟩, .event Event.zero]
      = some ⟨[⟨some [97, 61, 49], none⟩], [.configMapsWatch "default"],
          .panicked .interfaceConversion⟩ ∧
    SecretConfigManager.Watch ⟨sampleClient, "default"⟩ "creds/token" [.event Event.zero]
      = some ⟨[], [.secretsWatch "default"], .panicked .interfaceConversion⟩ ∧
    ConfigMapConfigManager.Watch ⟨sampleClient, "default"⟩ "app/cfg"
        [.event ⟨"ERROR", .status "too old resource version"⟩]
      = some ⟨[], [.configMapsWatch "default"], .panicked .interfaceConversion⟩ := by
  decide

/-- C9: for a key that parsePath rejects, Get of both managers returns nil data
and the error of parsePath without any client call, and Watch of both managers
returns the nil channel without starting the goroutine; so the results are the
same for any two managers, whatever their client and namespace. -/
theorem malformed_key_no_interaction (key : String)
    (kcm kcm2 : ConfigMapConfigManager) (scm scm2 : SecretConfigManager)
    (sched sched2 : List Select) (herr : (parsePath key).2.2 ≠ none) :
    kcm.Get key = ⟨none, (parsePath key).2.2, []⟩ ∧
    scm.Get key = ⟨none, (parsePath key).2.2, []⟩ ∧
    kcm.Watch key sched = none ∧ scm.Watch key sched = none ∧
    kcm.Get key = kcm2.Get key ∧ scm.Get key = scm2.Get key ∧
    kcm.Watch key sched = kcm2.Watch key sched2 ∧
    scm.Watch key sched = scm2.Watch key sched2 := by
  have hp : parsePath key
      = ("", "", some ⟨"unstructual path, path should be cm(secrete)name/key"⟩) := by
    rcases parsePath_err_cases key with h | h
    · exact absurd h herr
    · exact h
  simp [ConfigMapConfigManager.Get, SecretConfigManager.Get, ConfigMapConfigManager.Watch,
    SecretConfigManager.Watch, hp]

theorem malformed_key_no_interaction_witness :
    (parsePath "a/b/c").2.2 ≠ none ∧
    ConfigMapConfigManager.Get ⟨sampleClient, "default"⟩ "a/b/c"
      = ⟨none, (parsePath "a/b/c").2.2, []⟩ ∧
    SecretConfigManager.Get ⟨sampleClient, "default"⟩ "a/b/c"
      = ⟨none, (parsePath "a/b/c").2.2, []⟩ ∧
    ConfigMapConfigManager.Watch ⟨sampleClient, "default"⟩ "a/b/c" [.stop] = none ∧
    SecretConfigManager.Watch ⟨sampleClient, "default"⟩ "a/b/c" [.stop] = none :=
  have h := malformed_key_no_interaction "a/b/c" ⟨sampleClient, "default"⟩
    ⟨failingClient, "kube-system"⟩ ⟨sampleClient, "default"⟩ ⟨failingClient, ""⟩
    [.stop] [] (by decide)
  ⟨by decide, h.1, h.2.1, h.2.2.1, h.2.2.2.1⟩

/-! ## Constructors -/

/-- C10: the two constructors do not resolve the namespace in the same way.
With an empty namespace argument and a kubeconfig for which client construction
succeeds, NewConfigMapConfigManager builds a manager with Namespace default,
while NewSecretConfigManager builds one whose Namespace is the empty string. -/
theorem newSecretConfigManager_keeps_empty_namespace :
    (NewConfigMapConfigManager sampleLibrary "" "").toOption.map (fun m => m.Namespace)
      = some "default" ∧
    (NewSecretConfigManager sampleLibrary "" "").toOption.map (fun m => m.Namespace)
      = some "" ∧
    (NewConfigMapConfigManager sampleLibrary "" "prod").toOption.map (fun m => m.Namespace)
      = some "prod" ∧
    (NewSecretConfigManager sampleLibrary "" "prod").toOption.map (fun m => m.Namespace)
      = some "prod" := by
  decide

end ViperKubernetes
